import Mathlib

/-!
Verification development for the Leetzer browser extension.

The definitions below are shallow embeddings of the TypeScript source:

* `src/src/utils/geminiClient.ts` — the `GeminiClient` class: rate-limit
  bookkeeping (`checkRateLimit`, `updateRateLimit`), the retrying HTTP
  request loop (`makeRequest`), the four tolerant response parsers
  (`parseAnalysisResponse`, `parseSolutionResponse`,
  `parseComplexityResponse`, `parseOptimizationResponse`) and the public
  operations (`testApiKey`, `analyzeCode`, `generateSolution`,
  `analyzeComplexity`, `optimizeCode`).
* `src/src/utils/codeParser.ts` — the `CodeParser` class: language
  detection (`detectProgrammingLanguage`, `detectLanguageFromCode`),
  code extraction (`extractCodeFromEditor`), bracket-based error
  detection (`detectJavaScriptErrors`) and tag extraction
  (`extractProblemTags`).

Network I/O is modelled by an oracle `fetch : Nat → Except String String`
giving, for each attempt number, either the extracted response text
(the success path of the `try` block) or the message of the error the
`catch` block records.  `Date.now()` is an explicit `now : Nat`
parameter.  JavaScript strings-or-undefined are `Option String`, and the
JavaScript truthiness of `||` is modelled explicitly (`jsOrStr`,
`jsOrJson`): the empty string, `0`, `null` and `false` are falsy.
`JSON.parse` is modelled by `jsonParse`, a recursive-descent parser for
the JSON grammar (ECMA-404) returning `none` exactly when `JSON.parse`
throws; JSON numbers are represented exactly as rationals.
-/

namespace Leetzer

/-- JavaScript `a || b` for `a : string | null | undefined`:
`null`, `undefined` and the empty string fall through to `b`. -/
def jsOrStr : Option String → String → String
  | some s, d => if s = "" then d else s
  | none, d => d

/-! ## GeminiClient: rate limiting and the retry loop -/

/-- The `RateLimitInfo` record of `geminiClient.ts`. -/
structure RateLimitInfo where
  requestsPerMinute : Nat
  currentRequests : Nat
  resetTime : Nat
deriving DecidableEq

/-- `GeminiClient.MAX_RETRIES`. -/
def MAX_RETRIES : Nat := 3

/-- `GeminiClient.RETRY_DELAY` (milliseconds). -/
def RETRY_DELAY : Nat := 1000

/-- The initial `GeminiClient.rateLimitInfo` of
`src/src/utils/geminiClient.ts`: `requestsPerMinute: 0`,
`currentRequests: 0`, `resetTime: Date.now() + 60000`, where `t0` is the
value of `Date.now()` at module initialisation. -/
def initialRateLimitInfo (t0 : Nat) : RateLimitInfo :=
  { requestsPerMinute := 0, currentRequests := 0, resetTime := t0 + 60000 }

/-- The `GeminiResponse` shape: `success`, optional `data`, optional `error`. -/
structure GeminiResponse where
  success : Bool
  data? : Option String := none
  error? : Option String := none
deriving DecidableEq

/-- `GeminiClient.checkRateLimit`, with `Date.now()` passed explicitly:
resets the window when `now` has passed `resetTime`, then reports whether
`currentRequests < requestsPerMinute`.  Returns the flag together with
the (possibly reset) mutated state. -/
def checkRateLimit (now : Nat) (info : RateLimitInfo) : Bool × RateLimitInfo :=
  let info' :=
    if now > info.resetTime then
      { info with currentRequests := 0, resetTime := now + 60000 }
    else info
  (decide (info'.currentRequests < info'.requestsPerMinute), info')

/-- `GeminiClient.updateRateLimit`: increments `currentRequests`. -/
def updateRateLimit (info : RateLimitInfo) : RateLimitInfo :=
  { info with currentRequests := info.currentRequests + 1 }

/-- The error string returned by `makeRequest` when the rate limit check fails. -/
def rateLimitMsg : String :=
  "Rate limit exceeded. Please wait before making another request."

/-- The fallback error string of `makeRequest` when the retry loop ends
with no (truthy) recorded error message. -/
def retriesMsg : String := "Request failed after retries"

/-- Observable outcome of one `makeRequest` call: the returned
`GeminiResponse`, the final `rateLimitInfo` state, the number of `fetch`
attempts performed, and the list of backoff delays awaited (in order,
in milliseconds). -/
structure RequestTrace where
  response : GeminiResponse
  state : RateLimitInfo
  attempts : Nat
  delays : List Nat
deriving DecidableEq

/-- The `for (let attempt = 1; attempt <= MAX_RETRIES; attempt++)` loop of
`GeminiClient.makeRequest`.  `fuel` is the number of remaining loop
iterations (`MAX_RETRIES - attempt + 1` at entry), `attempt` the current
attempt number, `lastError` the recorded error message so far (`none`
models `lastError === null`).  On a successful attempt the loop calls
`updateRateLimit` and returns the text; on a failed attempt it records
the error, awaits `RETRY_DELAY * attempt` when `attempt < MAX_RETRIES`,
and continues.  When attempts are exhausted it returns
`lastError?.message || 'Request failed after retries'`. -/
def attemptLoop (fetch : Nat → Except String String) (info : RateLimitInfo) :
    Nat → Nat → Option String → RequestTrace
  | 0, _, lastError =>
    { response := { success := false, error? := some (jsOrStr lastError retriesMsg) }
      state := info, attempts := 0, delays := [] }
  | fuel + 1, attempt, _ =>
    match fetch attempt with
    | .ok text =>
      { response := { success := true, data? := some text }
        state := updateRateLimit info, attempts := 1, delays := [] }
    | .error msg =>
      let rest := attemptLoop fetch info fuel (attempt + 1) (some msg)
      { response := rest.response
        state := rest.state
        attempts := rest.attempts + 1
        delays := (if attempt < MAX_RETRIES then [RETRY_DELAY * attempt] else []) ++ rest.delays }

/-- `GeminiClient.makeRequest`: checks the rate limit (with its reset
side effect) and either returns the rate-limit error without any fetch
attempt, or runs the retry loop starting at attempt 1. -/
def makeRequest (fetch : Nat → Except String String) (now : Nat)
    (info : RateLimitInfo) : RequestTrace :=
  let c := checkRateLimit now info
  if c.1 then attemptLoop fetch c.2 MAX_RETRIES 1 none
  else
    { response := { success := false, error? := some rateLimitMsg }
      state := c.2, attempts := 0, delays := [] }

/-! ## A model of `JSON.parse`

JavaScript values produced by `JSON.parse` — numbers are represented
exactly as rationals (the claims only involve numbers that are exact
doubles, such as `0` and `0.5`). -/

/-- An opening brace character (spelled via its code point). -/
def lbrace : Char := Char.ofNat 123

/-- A closing brace character (spelled via its code point). -/
def rbrace : Char := Char.ofNat 125

/-- A JSON value. -/
inductive Json where
  | null
  | bool (b : Bool)
  | num (q : ℚ)
  | str (s : String)
  | arr (elems : List Json)
  | obj (members : List (String × Json))

/-- JSON insignificant whitespace: space, tab, line feed, carriage return. -/
def jsonWs (c : Char) : Bool := c = ' ' || c = '\t' || c = '\n' || c = '\r'

/-- Skips JSON whitespace. -/
def skipWs : List Char → List Char
  | c :: rest => if jsonWs c then skipWs rest else c :: rest
  | [] => []

/-- Value of a hexadecimal digit, `none` for other characters. -/
def hexVal? (c : Char) : Option Nat :=
  if '0' ≤ c ∧ c ≤ '9' then some (c.toNat - 48)
  else if 'a' ≤ c ∧ c ≤ 'f' then some (c.toNat - 87)
  else if 'A' ≤ c ∧ c ≤ 'F' then some (c.toNat - 55)
  else none

/-- Parses the body of a JSON string (after the opening quote), handling
the escape sequences of ECMA-404.  `\uXXXX` surrogate pairs are
combined; a lone surrogate (representable in a JavaScript string but not
as a Unicode scalar) is mapped to U+FFFD. -/
def strBody : Nat → List Char → List Char → Option (String × List Char)
  | 0, _, _ => none
  | _ + 1, _, [] => none
  | fuel + 1, acc, c :: rest =>
    if c = '"' then some (String.mk acc.reverse, rest)
    else if c = '\\' then
      match rest with
      | [] => none
      | e :: rest' =>
        if e = '"' then strBody fuel ('"' :: acc) rest'
        else if e = '\\' then strBody fuel ('\\' :: acc) rest'
        else if e = '/' then strBody fuel ('/' :: acc) rest'
        else if e = 'b' then strBody fuel ('\x08' :: acc) rest'
        else if e = 'f' then strBody fuel ('\x0c' :: acc) rest'
        else if e = 'n' then strBody fuel ('\n' :: acc) rest'
        else if e = 'r' then strBody fuel ('\r' :: acc) rest'
        else if e = 't' then strBody fuel ('\t' :: acc) rest'
        else if e = 'u' then
          match rest' with
          | h1 :: h2 :: h3 :: h4 :: rest2 =>
            match hexVal? h1, hexVal? h2, hexVal? h3, hexVal? h4 with
            | some a, some b, some cHex, some d =>
              let n := ((a * 16 + b) * 16 + cHex) * 16 + d
              if 0xD800 ≤ n ∧ n ≤ 0xDBFF then
                match rest2 with
                | '\\' :: 'u' :: g1 :: g2 :: g3 :: g4 :: rest3 =>
                  match hexVal? g1, hexVal? g2, hexVal? g3, hexVal? g4 with
                  | some a2, some b2, some c2, some d2 =>
                    let m := ((a2 * 16 + b2) * 16 + c2) * 16 + d2
                    if 0xDC00 ≤ m ∧ m ≤ 0xDFFF then
                      strBody fuel (Char.ofNat (0x10000 + (n - 0xD800) * 0x400 + (m - 0xDC00)) :: acc) rest3
                    else strBody fuel (Char.ofNat 0xFFFD :: acc) rest2
                  | _, _, _, _ => strBody fuel (Char.ofNat 0xFFFD :: acc) rest2
                | _ => strBody fuel (Char.ofNat 0xFFFD :: acc) rest2
              else if 0xDC00 ≤ n ∧ n ≤ 0xDFFF then strBody fuel (Char.ofNat 0xFFFD :: acc) rest2
              else strBody fuel (Char.ofNat n :: acc) rest2
            | _, _, _, _ => none
          | _ => none
        else none
    else if c.toNat < 0x20 then none
    else strBody fuel (c :: acc) rest

/-- Parses the body of a JSON string starting right after the opening
quote.  The fuel `l.length + 1` cannot run out before the input does,
since every step consumes at least one character. -/
def parseStringBody (l : List Char) : Option (String × List Char) :=
  strBody (l.length + 1) [] l

/-- Numeric value of a decimal digit character. -/
def digitVal (c : Char) : Nat := c.toNat - 48

/-- Splits off a maximal run of decimal digits. -/
def takeDigits : List Char → List Char × List Char
  | [] => ([], [])
  | c :: rest =>
    if c.isDigit then
      let (ds, r) := takeDigits rest
      (c :: ds, r)
    else ([], c :: rest)

/-- Reads a digit run as a natural number. -/
def digitsToNat (ds : List Char) : Nat := ds.foldl (fun n c => 10 * n + digitVal c) 0

/-- Parses an optional JSON fraction part, returning its digits' value,
the number of fraction digits, and the remaining input.  A decimal point
not followed by a digit is a syntax error. -/
def parseFrac : List Char → Option (Nat × Nat × List Char)
  | '.' :: r =>
    match takeDigits r with
    | ([], _) => none
    | (ds, r') => some (digitsToNat ds, ds.length, r')
  | s => some (0, 0, s)

/-- Parses an optional JSON exponent part. -/
def parseExp : List Char → Option (Int × List Char)
  | c :: r =>
    if c = 'e' ∨ c = 'E' then
      let (sgn, r1) :=
        match r with
        | '+' :: r' => (false, r')
        | '-' :: r' => (true, r')
        | _ => (false, r)
      match takeDigits r1 with
      | ([], _) => none
      | (ds, r') =>
        some ((if sgn then -(digitsToNat ds : Int) else (digitsToNat ds : Int)), r')
    else some (0, c :: r)
  | [] => some (0, [])

/-- Assembles a JSON number from its integer part plus any fraction and
exponent parts: the exact rational
`sign * (ip + fd / 10 ^ fk) * 10 ^ e`, built with `mkRat` over integer
arithmetic. -/
def numTail (neg : Bool) (ip : Nat) (s : List Char) : Option (ℚ × List Char) :=
  match parseFrac s with
  | none => none
  | some (fd, fk, s1) =>
    match parseExp s1 with
    | none => none
    | some (e, s2) =>
      let mantissa : Int := Int.ofNat (ip * 10 ^ fk + fd)
      let mantissa := if neg then -mantissa else mantissa
      let q : ℚ :=
        if 0 ≤ e then mkRat (mantissa * Int.ofNat (10 ^ e.toNat)) (10 ^ fk)
        else mkRat mantissa (10 ^ fk * 10 ^ (-e).toNat)
      some (q, s2)

/-- Parses a JSON number at the head of the input (no leading `+`, no
leading zeros, per the JSON grammar). -/
def parseNumberAt (s : List Char) : Option (ℚ × List Char) :=
  let (neg, s1) :=
    match s with
    | '-' :: r => (true, r)
    | _ => (false, s)
  match s1 with
  | [] => none
  | c :: rest =>
    if c = '0' then numTail neg 0 rest
    else if c.isDigit then
      match takeDigits rest with
      | (ds, r) => numTail neg (digitsToNat (c :: ds)) r
    else none

mutual

/-- Parses one JSON value (leading whitespace allowed).  The fuel is an
upper bound on recursion depth; `jsonParse` supplies `2 * length + 2`,
which is enough since the parser consumes at least one character for
every two fuel units. -/
def parseValue : Nat → List Char → Option (Json × List Char)
  | 0, _ => none
  | fuel + 1, s₀ =>
    let s := skipWs s₀
    match s with
    | [] => none
    | c :: rest =>
      if c = lbrace then
        let r := skipWs rest
        match r with
        | c' :: r' =>
          if c' = rbrace then some (.obj [], r')
          else
            match parseMembers fuel (c' :: r') with
            | some (kvs, r2) => some (.obj kvs, r2)
            | none => none
        | [] => none
      else if c = '[' then
        let r := skipWs rest
        match r with
        | ']' :: r' => some (.arr [], r')
        | _ =>
          match parseItems fuel r with
          | some (vs, r') => some (.arr vs, r')
          | none => none
      else if c = '"' then
        match parseStringBody rest with
        | some (txt, r) => some (.str txt, r)
        | none => none
      else if c = 't' then
        match rest with
        | 'r' :: 'u' :: 'e' :: r => some (.bool true, r)
        | _ => none
      else if c = 'f' then
        match rest with
        | 'a' :: 'l' :: 's' :: 'e' :: r => some (.bool false, r)
        | _ => none
      else if c = 'n' then
        match rest with
        | 'u' :: 'l' :: 'l' :: r => some (.null, r)
        | _ => none
      else
        match parseNumberAt (c :: rest) with
        | some (q, r) => some (.num q, r)
        | none => none

/-- Parses the comma-separated elements of a non-empty JSON array,
including the closing bracket. -/
def parseItems : Nat → List Char → Option (List Json × List Char)
  | 0, _ => none
  | fuel + 1, s =>
    match parseValue fuel s with
    | none => none
    | some (v, r₀) =>
      let r := skipWs r₀
      match r with
      | ',' :: r' =>
        match parseItems fuel r' with
        | some (vs, r2) => some (v :: vs, r2)
        | none => none
      | ']' :: r' => some ([v], r')
      | _ => none

/-- Parses the members of a non-empty JSON object (input positioned at
the first key's opening quote), including the closing brace. -/
def parseMembers : Nat → List Char → Option (List (String × Json) × List Char)
  | 0, _ => none
  | fuel + 1, s =>
    match s with
    | c :: rest =>
      if c = '"' then
        match parseStringBody rest with
        | none => none
        | some (k, r₀) =>
          let r := skipWs r₀
          match r with
          | ':' :: r' =>
            match parseValue fuel r' with
            | none => none
            | some (v, r2) =>
              let r3 := skipWs r2
              match r3 with
              | ',' :: r4 =>
                match parseMembers fuel (skipWs r4) with
                | some (kvs, r5) => some ((k, v) :: kvs, r5)
                | none => none
              | c2 :: r4 =>
                if c2 = rbrace then some ([(k, v)], r4)
                else none
              | [] => none
          | _ => none
      else none
    | [] => none

end

/-- The model of `JSON.parse`: parse one value, allow trailing
whitespace, reject trailing garbage.  `none` models a thrown
`SyntaxError`. -/
def jsonParse (s : String) : Option Json :=
  match parseValue (2 * s.length + 2) s.data with
  | some (v, rest) => if skipWs rest = [] then some v else none
  | none => none

/-! ## JavaScript value semantics used by the tolerant parsers -/

/-- JavaScript truthiness of a JSON value: `null`, `false`, `0` and the
empty string are falsy; arrays and objects (even empty) are truthy. -/
def truthy : Json → Bool
  | .null => false
  | .bool b => b
  | .num q => q ≠ 0
  | .str s => s ≠ ""
  | .arr _ => true
  | .obj _ => true

/-- JavaScript `v || d` where `v` is a possibly absent (undefined)
property value. -/
def jsOrJson (v : Option Json) (d : Json) : Json :=
  match v with
  | some x => if truthy x then x else d
  | none => d

/-- Own-property lookup on an object produced by `JSON.parse`: with
duplicate keys the last occurrence wins. -/
def lookupLast (kvs : List (String × Json)) (k : String) : Option Json :=
  kvs.foldl (fun acc p => if p.1 = k then some p.2 else acc) none

/-- Property access `parsed.k` for a non-null `JSON.parse` result:
objects yield their own properties, every other value yields
`undefined` (`none`).  Access on `null` throws and is handled
separately at each use site. -/
def getField (v : Json) (k : String) : Option Json :=
  match v with
  | .obj kvs => lookupLast kvs k
  | _ => none

/-! ## The supported-language type (shared with `codeParser.ts`) -/

/-- The `SupportedLanguage` union type of `src/types`. -/
inductive SupportedLanguage where
  | javascript
  | python
  | cpp
  | java
  | csharp
  | go
  | rust
  | typescript
  | unknown
deriving DecidableEq

/-! ## GeminiClient: the tolerant response parsers -/

/-- The `AnalysisResult` shape.  TypeScript types are erased at runtime,
so each field holds whatever JSON value the parser put there. -/
structure AnalysisResult where
  errors : Json
  warnings : Json
  suggestions : Json
  confidence : Json

/-- The `SolutionResult` shape. -/
structure SolutionResult where
  code : Json
  language : SupportedLanguage
  approach : Json
  timeComplexity : Json
  spaceComplexity : Json

/-- The `ComplexityAnalysis` shape; `comparisonWithOptimal` may be
undefined. -/
structure ComplexityAnalysis where
  timeComplexity : Json
  spaceComplexity : Json
  explanation : Json
  comparisonWithOptimal : Option Json

/-- The fallback `AnalysisResult` of `parseAnalysisResponse`'s catch
branch. -/
def analysisFallback : AnalysisResult :=
  { errors := .arr []
    warnings := .arr []
    suggestions := .arr [.str "Failed to parse analysis response"]
    confidence := .num 0 }

/-- `GeminiClient.parseAnalysisResponse`.  The catch branch is taken
when `JSON.parse` throws, and also when it returns `null` (property
access on `null` throws a `TypeError` inside the `try`). -/
def parseAnalysisResponse (responseText : String) : AnalysisResult :=
  match jsonParse responseText with
  | none => analysisFallback
  | some .null => analysisFallback
  | some parsed =>
    { errors := jsOrJson (getField parsed "errors") (.arr [])
      warnings := jsOrJson (getField parsed "warnings") (.arr [])
      suggestions := jsOrJson (getField parsed "suggestions") (.arr [])
      confidence := jsOrJson (getField parsed "confidence") (.num (mkRat 1 2)) }

/-- `GeminiClient.parseSolutionResponse`: on parse failure the raw
response text is used as the code. -/
def parseSolutionResponse (responseText : String) (language : SupportedLanguage) :
    SolutionResult :=
  match jsonParse responseText with
  | none =>
    { code := .str responseText, language, approach := .str "Generated solution"
      timeComplexity := .str "O(?)", spaceComplexity := .str "O(?)" }
  | some .null =>
    { code := .str responseText, language, approach := .str "Generated solution"
      timeComplexity := .str "O(?)", spaceComplexity := .str "O(?)" }
  | some parsed =>
    { code := jsOrJson (getField parsed "code") (.str "")
      language
      approach := jsOrJson (getField parsed "approach") (.str "Unknown approach")
      timeComplexity := jsOrJson (getField parsed "timeComplexity") (.str "O(?)")
      spaceComplexity := jsOrJson (getField parsed "spaceComplexity") (.str "O(?)") }

/-- The default/fallback `timeComplexity` object of
`parseComplexityResponse`. -/
def unknownTimeComplexity : Json :=
  .obj [("best", .str "O(?)"), ("average", .str "O(?)"), ("worst", .str "O(?)")]

/-- `GeminiClient.parseComplexityResponse`. -/
def parseComplexityResponse (responseText : String) : ComplexityAnalysis :=
  match jsonParse responseText with
  | none =>
    { timeComplexity := unknownTimeComplexity, spaceComplexity := .str "O(?)"
      explanation := .str "Failed to parse complexity analysis"
      comparisonWithOptimal := none }
  | some .null =>
    { timeComplexity := unknownTimeComplexity, spaceComplexity := .str "O(?)"
      explanation := .str "Failed to parse complexity analysis"
      comparisonWithOptimal := none }
  | some parsed =>
    { timeComplexity := jsOrJson (getField parsed "timeComplexity") unknownTimeComplexity
      spaceComplexity := jsOrJson (getField parsed "spaceComplexity") (.str "O(?)")
      explanation := jsOrJson (getField parsed "explanation") (.str "No explanation provided")
      comparisonWithOptimal := getField parsed "comparisonWithOptimal" }

/-- The fallback suggestion list of `parseOptimizationResponse`. -/
def optimizationFallback : Json :=
  .arr [.obj [("type", .str "implementation"),
              ("description", .str "Failed to parse optimization suggestions"),
              ("impact", .str "low")]]

/-- `GeminiClient.parseOptimizationResponse`: returns
`parsed.suggestions || []`, or the fallback single low-impact
suggestion when parsing fails. -/
def parseOptimizationResponse (responseText : String) : Json :=
  match jsonParse responseText with
  | none => optimizationFallback
  | some .null => optimizationFallback
  | some parsed => jsOrJson (getField parsed "suggestions") (.arr [])

/-! ## GeminiClient: public operations -/

/-- `response.data` as passed to a parser.  On the success path it is
always present; `JSON.parse(undefined)` would coerce to the unparsable
string `"undefined"`. -/
def responseData (r : GeminiResponse) : String := r.data?.getD "undefined"

/-- `GeminiClient.analyzeCode`: performs the request and either throws
the response's error (`Except.error`) or parses the analysis. -/
def analyzeCode (fetch : Nat → Except String String) (now : Nat)
    (info : RateLimitInfo) : Except String AnalysisResult × RateLimitInfo :=
  let t := makeRequest fetch now info
  if t.response.success then
    (.ok (parseAnalysisResponse (responseData t.response)), t.state)
  else
    (.error (jsOrStr t.response.error? "Failed to analyze code"), t.state)

/-- `GeminiClient.generateSolution`. -/
def generateSolution (fetch : Nat → Except String String) (now : Nat)
    (info : RateLimitInfo) (language : SupportedLanguage) :
    Except String SolutionResult × RateLimitInfo :=
  let t := makeRequest fetch now info
  if t.response.success then
    (.ok (parseSolutionResponse (responseData t.response) language), t.state)
  else
    (.error (jsOrStr t.response.error? "Failed to generate solution"), t.state)

/-- `GeminiClient.analyzeComplexity`. -/
def analyzeComplexity (fetch : Nat → Except String String) (now : Nat)
    (info : RateLimitInfo) : Except String ComplexityAnalysis × RateLimitInfo :=
  let t := makeRequest fetch now info
  if t.response.success then
    (.ok (parseComplexityResponse (responseData t.response)), t.state)
  else
    (.error (jsOrStr t.response.error? "Failed to analyze complexity"), t.state)

/-- `GeminiClient.optimizeCode`. -/
def optimizeCode (fetch : Nat → Except String String) (now : Nat)
    (info : RateLimitInfo) : Except String Json × RateLimitInfo :=
  let t := makeRequest fetch now info
  if t.response.success then
    (.ok (parseOptimizationResponse (responseData t.response)), t.state)
  else
    (.error (jsOrStr t.response.error? "Failed to optimize code"), t.state)

/-- `GeminiClient.isValidApiKeyFormat`. -/
def isValidApiKeyFormat (apiKey : String) : Bool :=
  apiKey.startsWith "AIza" && apiKey.length = 39

/-- The result shape of `GeminiClient.testApiKey`. -/
structure ApiKeyTestResult where
  isValid : Bool
  error? : Option String := none
deriving DecidableEq

/-- `GeminiClient.testApiKey`: rejects badly formatted keys, otherwise
reports whether the test request succeeded.  The spread
`...(response.error && \x7b error: response.error \x7d)` includes the error
field only when it is truthy. -/
def testApiKey (fetch : Nat → Except String String) (now : Nat)
    (info : RateLimitInfo) (apiKey : String) : ApiKeyTestResult × RateLimitInfo :=
  if !isValidApiKeyFormat apiKey then
    ({ isValid := false, error? := some "Invalid API key format" }, info)
  else
    let t := makeRequest fetch now info
    ({ isValid := t.response.success
       error? :=
         match t.response.error? with
         | some e => if e = "" then none else some e
         | none => none }, t.state)

/-! ## CodeParser: DOM model -/

/-- A DOM element as observed by `codeParser.ts`: its attributes, its
`textContent` (never null for elements), and its `value` (textareas). -/
structure Element where
  attrs : List (String × String)
  textContent : String
  value : String := ""

/-- `element.getAttribute(name)`: `none` models `null` (attribute absent). -/
def Element.getAttr (el : Element) (name : String) : Option String :=
  List.lookup name el.attrs

/-- A DOM state: `document.querySelector`, `document.querySelectorAll`
(in document order) and `window.location.href`. -/
structure DOM where
  query : String → Option Element
  queryAll : String → List Element
  href : String

/-- JavaScript's ASCII whitespace (the claims only involve ASCII). -/
def jsSpace (c : Char) : Bool :=
  c = ' ' || c = '\t' || c = '\n' || c = '\r' || c = '\x0b' || c = '\x0c'

/-- JavaScript `String.prototype.trim`. -/
def jsTrim (s : String) : String :=
  String.mk (((s.data.dropWhile jsSpace).reverse.dropWhile jsSpace).reverse)

/-- Substring containment on character lists. -/
def listIncl (needle : List Char) : List Char → Bool
  | [] => needle.isEmpty
  | c :: rest => List.isPrefixOf needle (c :: rest) || listIncl needle rest

/-- JavaScript `hay.includes(needle)`. -/
def strIncludes (hay needle : String) : Bool := listIncl needle.data hay.data

/-! ## CodeParser: language map and selectors -/

/-- `CodeParser.LANGUAGE_MAP`. -/
def LANGUAGE_MAP : List (String × SupportedLanguage) :=
  [("javascript", .javascript), ("python", .python), ("python3", .python),
   ("cpp", .cpp), ("c++", .cpp), ("java", .java), ("csharp", .csharp),
   ("c#", .csharp), ("go", .go), ("golang", .go), ("rust", .rust),
   ("typescript", .typescript), ("ts", .typescript)]

/-- `LANGUAGE_MAP[key]` (own-property lookup; the keys are distinct). -/
def langMapLookup (k : String) : Option SupportedLanguage :=
  List.lookup k LANGUAGE_MAP

/-- `CodeParser.LANGUAGE_SELECTORS`. -/
def LANGUAGE_SELECTORS : List String :=
  ["[data-mode-id]", ".ant-select-selection-item[title]",
   ".language-selector button", "[data-cy=\"lang-select\"] button span",
   "button[id*=\"headlessui-listbox-button\"] span"]

/-- The candidate language string read from one language-selector
element: `getAttribute('data-mode-id') || getAttribute('title') ||
textContent?.trim().toLowerCase()`. -/
def elementLang (el : Element) : String :=
  jsOrStr (el.getAttr "data-mode-id")
    (jsOrStr (el.getAttr "title") ((jsTrim el.textContent).toLower))

/-- The regex match `href.match(/lang=([^&]+)/)`: the first position
where `lang=` is followed by at least one non-`&` character yields the
maximal such run as the capture. -/
def langParamAux : List Char → Option String
  | [] => none
  | c :: rest =>
    if List.isPrefixOf ['l', 'a', 'n', 'g', '='] (c :: rest) then
      let cap := ((c :: rest).drop 5).takeWhile (fun x => x ≠ '&')
      if cap = [] then langParamAux rest else some (String.mk cap)
    else langParamAux rest

/-- The captured `lang=` query-parameter value of a URL, if any. -/
def langParam (href : String) : Option String := langParamAux href.data

/-! ## CodeParser: extractCodeFromEditor (the `src/src` version) -/

/-- `element.textContent || ''` joined with newlines, as done for editor
line elements. -/
def joinLines (els : List Element) : String :=
  String.intercalate "\n" (els.map (fun el => el.textContent))

/-- The Monaco line selectors tried first by `extractCodeFromEditor`. -/
def monacoSelectors : List String :=
  [".view-lines .view-line", ".monaco-editor .view-lines .view-line",
   ".view-line span", ".monaco-editor .view-line"]

/-- The Monaco branch: first selector with elements whose joined,
trimmed text is truthy and longer than 10 characters. -/
def monacoScan (dom : DOM) : List String → Option String
  | [] => none
  | sel :: rest =>
    let lines := dom.queryAll sel
    if lines.length > 0 then
      let code := jsTrim (joinLines lines)
      if code ≠ "" ∧ code.length > 10 then some code else monacoScan dom rest
    else monacoScan dom rest

/-- The `codeEditors` selector list of `extractCodeFromEditor`. -/
def codeEditorSelList : List String :=
  [".CodeMirror-code .CodeMirror-line", ".cm-content .cm-line",
   ".cm-editor .cm-line",
   "div[data-track-load=\"code_editor\"] .monaco-editor .view-line",
   "div[class*=\"monaco\"] .view-line", ".monaco-mouse-cursor-text .view-line",
   ".ace_content .ace_line", "textarea[data-schemapath]",
   "[data-mode-id] .view-line"]

/-- The generic editor-selector loop of `extractCodeFromEditor`:
line-based selectors join their lines, others take the first element's
text; a result is returned when its trimmed form is longer than 10. -/
def editorScan (dom : DOM) : List String → Option String
  | [] => none
  | sel :: rest =>
    let elements := dom.queryAll sel
    if elements.length > 0 then
      let code :=
        if strIncludes sel "CodeMirror-line" then joinLines elements
        else if strIncludes sel "cm-line" then joinLines elements
        else if strIncludes sel "view-line" then joinLines elements
        else
          match elements.head? with
          | some container => container.textContent
          | none => ""
      if code ≠ "" ∧ (jsTrim code).length > 10 then some (jsTrim code)
      else editorScan dom rest
    else editorScan dom rest

/-- The textarea fallback of `extractCodeFromEditor`. -/
def textareaScan : List Element → Option String
  | [] => none
  | ta :: rest =>
    if ta.value ≠ "" ∧ (jsTrim ta.value).length > 10 then some (jsTrim ta.value)
    else textareaScan rest

/-- The `pre, code` fallback of `extractCodeFromEditor`. -/
def preCodeScan : List Element → Option String
  | [] => none
  | block :: rest =>
    let content := block.textContent
    if (jsTrim content).length > 50 ∧
        (strIncludes content "class" ∨ strIncludes content "function" ∨
          strIncludes content "def" ∨ strIncludes content "#include") then
      some (jsTrim content)
    else preCodeScan rest

/-- `CodeParser.extractCodeFromEditor` (the version of
`src/src/utils/codeParser.ts`): Monaco lines, then the generic editor
selectors, then textareas, then substantial `pre`/`code` blocks, else
the empty string. -/
def extractCodeFromEditor (dom : DOM) : String :=
  let monacoResult :=
    match dom.query ".monaco-editor" with
    | some _ => monacoScan dom monacoSelectors
    | none => none
  match monacoResult with
  | some code => code
  | none =>
    match editorScan dom codeEditorSelList with
    | some code => code
    | none =>
      match textareaScan (dom.queryAll "textarea") with
      | some code => code
      | none =>
        match preCodeScan (dom.queryAll "pre, code") with
        | some code => code
        | none => ""

/-! ## CodeParser: regular expressions used by detectLanguageFromCode

All quantifiers in the source's patterns apply to single-character
classes, so the regex type needs no general starred subexpressions. -/

/-- A single-character class. -/
inductive CC where
  | ch (c : Char)
  | ws
  | word
  | notCh (c : Char)
  | any
  | oneOf (cs : List Char)

/-- Membership of a character in a class.  `\s` is modelled on ASCII
whitespace; `.` matches everything but a newline; a negated class like
`[^)]` matches newlines too. -/
def CC.test : CC → Char → Bool
  | .ch c, x => x = c
  | .ws, x => jsSpace x
  | .word, x => x.isAlpha || x.isDigit || x = '_'
  | .notCh c, x => x ≠ c
  | .any, x => x ≠ '\n'
  | .oneOf cs, x => cs.contains x

/-- The regex fragment language needed by the source's patterns.
`bol`/`eol` are the multiline `^`/`$`. -/
inductive RE where
  | eps
  | cc (c : CC)
  | seq (a b : RE)
  | alt (a b : RE)
  | star (c : CC)
  | plus (c : CC)
  | bol
  | eol

/-- Matches `c*` then the continuation `k`, trying every split
(backtracking); the first argument of `k` is the previous character,
used by `bol`/`eol`. -/
def starCont (c : CC) (k : Option Char → List Char → Bool) :
    Option Char → List Char → Bool
  | prev, s =>
    k prev s ||
      match s with
      | [] => false
      | x :: xs => c.test x && starCont c k (some x) xs

/-- Backtracking matcher: does `r` match a prefix of `s` (with previous
character `prev`) such that `k` accepts the remainder? -/
def reMatch : RE → Option Char → List Char → (Option Char → List Char → Bool) → Bool
  | .eps, prev, s, k => k prev s
  | .cc c, _, s, k =>
    match s with
    | [] => false
    | x :: xs => c.test x && k (some x) xs
  | .seq a b, prev, s, k => reMatch a prev s (fun p' s' => reMatch b p' s' k)
  | .alt a b, prev, s, k => reMatch a prev s k || reMatch b prev s k
  | .star c, prev, s, k => starCont c k prev s
  | .plus c, _, s, k =>
    match s with
    | [] => false
    | x :: xs => c.test x && starCont c k (some x) xs
  | .bol, prev, s, k => (prev.isNone || prev == some '\n') && k prev s
  | .eol, prev, s, k => (s.isEmpty || s.head? == some '\n') && k prev s

/-- Does `r` match anywhere in the remaining input? -/
def reSearch (r : RE) : Option Char → List Char → Bool
  | prev, s =>
    reMatch r prev s (fun _ _ => true) ||
      match s with
      | [] => false
      | x :: xs => reSearch r (some x) xs

/-- JavaScript `r.test(code)`. -/
def reTest (r : RE) (code : String) : Bool := reSearch r none code.data

/-- A literal string as a regex. -/
def rlit (s : String) : RE := s.data.foldr (fun c r => RE.seq (.cc (.ch c)) r) .eps

/-- Concatenation of regex fragments. -/
def rcat (rs : List RE) : RE := rs.foldr RE.seq .eps

/-- The fragment `\s*`. -/
def wsS : RE := .star .ws

/-- The fragment `\s+`. -/
def wsP : RE := .plus .ws

/-- The fragment `\w+`. -/
def wordP : RE := .plus .word

/-- A single-quote character (spelled via its code point). -/
def sq : Char := Char.ofNat 39

/-- The `patterns` table of `CodeParser.detectLanguageFromCode`, in the
source's insertion order (the `unknown` entry is empty and skipped by
the loop, so it is omitted here). -/
def languagePatterns : List (SupportedLanguage × List RE) :=
  [(.python,
    [rcat [rlit "def", wsP, wordP, wsS, rlit "("],
     rcat [rlit "import", wsP, wordP],
     rcat [rlit "from", wsP, wordP, wsP, rlit "import"],
     rcat [rlit "if", wsP, rlit "__name__", wsS, rlit "==", wsS,
           .cc (.oneOf [sq, '"']), rlit "__main__", .cc (.oneOf [sq, '"']), rlit ":"],
     rcat [.bol, wsS, rlit "#", .star .any, .eol]]),
   (.javascript,
    [rcat [rlit "function", wsP, wordP, wsS, rlit "("],
     rcat [rlit "const", wsP, wordP, wsS, rlit "="],
     rcat [rlit "let", wsP, wordP, wsS, rlit "="],
     rcat [rlit "var", wsP, wordP, wsS, rlit "="],
     rcat [rlit "=>", wsS, .cc (.ch lbrace)],
     rlit "console.log("]),
   (.typescript,
    [rcat [rlit ":", wsS,
           .alt (.alt (rlit "string") (rlit "number")) (.alt (rlit "boolean") (rlit "any")),
           wsS, .cc (.oneOf ['=', ';'])],
     rcat [rlit "interface", wsP, wordP],
     rcat [rlit "type", wsP, wordP, wsS, rlit "="],
     rcat [rlit "function", wsP, wordP, wsS, rlit "(", .star (.notCh ')'),
           rlit ":", wsS, wordP]]),
   (.java,
    [rcat [rlit "public", wsP, rlit "class", wsP, wordP],
     rcat [rlit "public", wsP, rlit "static", wsP, rlit "void", wsP, rlit "main"],
     rlit "System.out.print",
     rcat [rlit "import", wsP, rlit "java."],
     rcat [rlit "private", wsP, wordP, wsP, wordP, wsS, rlit ";"]]),
   (.cpp,
    [rcat [rlit "#include", wsS, rlit "<", wordP, rlit ">"],
     rlit "std::",
     rcat [rlit "cout", wsS, rlit "<<"],
     rcat [rlit "cin", wsS, rlit ">>"],
     rcat [rlit "int", wsP, rlit "main", wsS, rlit "("],
     rcat [rlit "using", wsP, rlit "namespace", wsP, rlit "std"]]),
   (.csharp,
    [rcat [rlit "using", wsP, rlit "System"],
     rcat [rlit "public", wsP, rlit "class", wsP, wordP],
     rlit "Console.Write",
     rcat [rlit "static", wsP, rlit "void", wsP, rlit "Main"],
     rcat [rlit "string[]", wsP, rlit "args"]]),
   (.go,
    [rcat [rlit "package", wsP, rlit "main"],
     rcat [rlit "import", wsP, rlit "("],
     rcat [rlit "func", wsP, rlit "main", wsS, rlit "("],
     rlit "fmt.Print",
     rcat [rlit "var", wsP, wordP, wsP, wordP]]),
   (.rust,
    [rcat [rlit "fn", wsP, rlit "main", wsS, rlit "("],
     rcat [rlit "let", wsP, rlit "mut", wsP, wordP],
     rcat [rlit "println!", wsS, rlit "("],
     rcat [rlit "use", wsP, rlit "std::"],
     rcat [rlit "impl", wsP, wordP]])]

/-- `CodeParser.detectLanguageFromCode`: scores each language by how
many of its patterns match and keeps the first language with a strictly
maximal score, starting from `('unknown', 0)`. -/
def detectLanguageFromCode (code : String) : SupportedLanguage :=
  (languagePatterns.foldl
    (fun best p =>
      let score := (p.2.filter (fun r => reTest r code)).length
      if score > best.2 then (p.1, score) else best)
    (SupportedLanguage.unknown, 0)).1

/-! ## CodeParser: detectProgrammingLanguage -/

/-- The selector loop of `detectProgrammingLanguage`: the first selector
whose element yields a truthy candidate that maps through
`LANGUAGE_MAP` decides; otherwise the scan moves to the next selector. -/
def scanSelectors (dom : DOM) : List String → Option SupportedLanguage
  | [] => none
  | sel :: rest =>
    match dom.query sel with
    | none => scanSelectors dom rest
    | some el =>
      let lang := elementLang el
      if lang ≠ "" then
        match langMapLookup lang with
        | some l => some l
        | none => scanSelectors dom rest
      else scanSelectors dom rest

/-- The final stage of `detectProgrammingLanguage`: pattern scoring of
the extracted code when it is nonempty, else `'unknown'`. -/
def codeStageDetect (dom : DOM) : SupportedLanguage :=
  let code := extractCodeFromEditor dom
  if code ≠ "" then detectLanguageFromCode code else .unknown

/-- `CodeParser.detectProgrammingLanguage`: language-selector elements,
then the `lang=` URL parameter (lowercased) through `LANGUAGE_MAP`, then
pattern scoring of the extracted code. -/
def detectProgrammingLanguage (dom : DOM) : SupportedLanguage :=
  match scanSelectors dom LANGUAGE_SELECTORS with
  | some l => l
  | none =>
    match langParam dom.href with
    | some cap =>
      match langMapLookup cap.toLower with
      | some l => l
      | none => codeStageDetect dom
    | none => codeStageDetect dom

/-! ## CodeParser: detectJavaScriptErrors -/

/-- The character loop of `detectJavaScriptErrors`: one independent
counter per bracket type; a closing bracket that sends its counter below
zero returns `true` immediately; at the end, `true` iff some counter is
nonzero. -/
def jsErrLoop : List Char → Int → Int → Int → Bool
  | [], p, b, c => p != 0 || b != 0 || c != 0
  | ch :: rest, p, b, c =>
    if ch = '(' then jsErrLoop rest (p + 1) b c
    else if ch = '[' then jsErrLoop rest p (b + 1) c
    else if ch = lbrace then jsErrLoop rest p b (c + 1)
    else if ch = ')' then (if p - 1 < 0 then true else jsErrLoop rest (p - 1) b c)
    else if ch = ']' then (if b - 1 < 0 then true else jsErrLoop rest p (b - 1) c)
    else if ch = rbrace then (if c - 1 < 0 then true else jsErrLoop rest p b (c - 1))
    else jsErrLoop rest p b c

/-- `CodeParser.detectJavaScriptErrors`. -/
def detectJavaScriptErrors (code : String) : Bool :=
  jsErrLoop code.data 0 0 0

/-! ## CodeParser: extractProblemTags -/

/-- The `tagSelectors` list of `extractProblemTags`. -/
def tagSelectors : List String :=
  [".topic-tag", "[data-cy=\"topic-tags\"] a", ".tag",
   ".question-detail-main-tabs .tag", ".topic-tags a"]

/-- All candidate tag texts, in selector order then document order:
`element.textContent?.trim()` for each matched element. -/
def tagCandidates (dom : DOM) : List String :=
  (tagSelectors.map (fun sel => (dom.queryAll sel).map (fun el => jsTrim el.textContent))).flatten

/-- The collection loop of `extractProblemTags`: keep a candidate when
it is truthy, longer than one character, and not yet collected. -/
def collectTags : List String → List String → List String
  | [], acc => acc
  | t :: rest, acc =>
    if t ≠ "" ∧ 1 < t.length ∧ t ∉ acc then collectTags rest (acc ++ [t])
    else collectTags rest acc

/-- `CodeParser.extractProblemTags`: collect, then `slice(0, 10)`. -/
def extractProblemTags (dom : DOM) : List String :=
  (collectTags (tagCandidates dom) []).take 10

/-! ## Claim-side vocabulary

These definitions follow the wording of the specification's claims (not
the source); the theorems below relate them to the source-side
definitions above. -/

/-- The claims' "resetting the window if the current time has passed
resetTime". -/
def resetWindow (now : Nat) (info : RateLimitInfo) : RateLimitInfo :=
  if now > info.resetTime then
    { info with currentRequests := 0, resetTime := now + 60000 }
  else info

/-- The claims' "count of requests recorded in the current one-minute
window" after any reset due. -/
def windowCount (now : Nat) (info : RateLimitInfo) : Nat :=
  if now > info.resetTime then 0 else info.currentRequests

/-- The bracket-balance criterion of claim C9, for one bracket type:
equally many openings and closings overall, and no prefix with more
closings than openings. -/
def balancedPair (o cl : Char) (l : List Char) : Prop :=
  l.count o = l.count cl ∧ ∀ n ≤ l.length, (l.take n).count cl ≤ (l.take n).count o

instance balancedPairDecidable (o cl : Char) (l : List Char) :
    Decidable (balancedPair o cl l) := by
  unfold balancedPair
  infer_instance

/-- Generalisation of `balancedPair` to a running counter that starts at
`k` — the loop invariant behind `detectJavaScriptErrors`. -/
def okFromInt (o cl : Char) (k : Int) (l : List Char) : Prop :=
  k + l.count o - l.count cl = 0 ∧
    ∀ n ≤ l.length, ((l.take n).count cl : Int) ≤ k + (l.take n).count o

/-- Stage 1 of claim C8: the first language-selector element whose
candidate string (`data-mode-id` attribute, `title` attribute, or
lowercased trimmed text, in that fallback order) maps through
`LANGUAGE_MAP`. -/
def selectorStage (dom : DOM) : Option SupportedLanguage :=
  (LANGUAGE_SELECTORS.filterMap
    (fun sel => (dom.query sel).bind (fun el => langMapLookup (elementLang el)))).head?

/-- Stage 2 of claim C8: the `lang=` query parameter of the page URL,
lowercased, mapped through `LANGUAGE_MAP`. -/
def urlStage (dom : DOM) : Option SupportedLanguage :=
  (langParam dom.href).bind (fun cap => langMapLookup cap.toLower)

/-- Stage 3 of claim C8: pattern scoring of the extracted editor code;
it fails when there is no code or when scoring yields `'unknown'`. -/
def codeStage (dom : DOM) : Option SupportedLanguage :=
  if extractCodeFromEditor dom = "" then none
  else
    match detectLanguageFromCode (extractCodeFromEditor dom) with
    | .unknown => none
    | l => some l

/-! ## Helper lemmas: the retry loop -/

theorem jsOrStr_some_ne (e d : String) (h : e ≠ "") : jsOrStr (some e) d = e := by
  simp [jsOrStr, h]

theorem jsOrStr_ne_empty (o : Option String) (d : String) (hd : d ≠ "") :
    jsOrStr o d ≠ "" := by
  cases o with
  | none => simpa [jsOrStr] using hd
  | some s =>
    by_cases hs : s = "" <;> simp [jsOrStr, hs] <;> simpa using hd

theorem attemptLoop_attempts_le (fetch : Nat → Except String String)
    (info : RateLimitInfo) :
    ∀ fuel a le, (attemptLoop fetch info fuel a le).attempts ≤ fuel := by
  intro fuel
  induction fuel with
  | zero => intro a le; simp [attemptLoop]
  | succ n ih =>
    intro a le
    cases hf : fetch a with
    | ok text => simp [attemptLoop, hf]
    | error msg =>
      simp only [attemptLoop, hf]
      have := ih (a + 1) (some msg)
      omega

theorem attemptLoop_attempts_pos (fetch : Nat → Except String String)
    (info : RateLimitInfo) (fuel a : Nat) (le : Option String) (h : 0 < fuel) :
    0 < (attemptLoop fetch info fuel a le).attempts := by
  cases fuel with
  | zero => omega
  | succ n => cases hf : fetch a <;> simp [attemptLoop, hf]

theorem attemptLoop_state (fetch : Nat → Except String String)
    (info : RateLimitInfo) :
    ∀ fuel a le,
      (attemptLoop fetch info fuel a le).state =
        if (attemptLoop fetch info fuel a le).response.success then
          updateRateLimit info
        else info := by
  intro fuel
  induction fuel with
  | zero => intro a le; simp [attemptLoop]
  | succ n ih =>
    intro a le
    cases hf : fetch a with
    | ok text => simp [attemptLoop, hf]
    | error msg =>
      simp only [attemptLoop, hf]
      exact ih (a + 1) (some msg)

theorem attemptLoop_error_nonempty (fetch : Nat → Except String String)
    (info : RateLimitInfo) :
    ∀ fuel a le,
      (attemptLoop fetch info fuel a le).response.success = false →
      ∃ e, (attemptLoop fetch info fuel a le).response.error? = some e ∧ e ≠ "" := by
  intro fuel
  induction fuel with
  | zero =>
    intro a le _
    exact ⟨jsOrStr le retriesMsg, rfl, jsOrStr_ne_empty le retriesMsg (by decide)⟩
  | succ n ih =>
    intro a le hsucc
    cases hf : fetch a with
    | ok text => simp [attemptLoop, hf] at hsucc
    | error msg =>
      simp only [attemptLoop, hf] at hsucc ⊢
      exact ih (a + 1) (some msg) hsucc

theorem attemptLoop_success_data (fetch : Nat → Except String String)
    (info : RateLimitInfo) :
    ∀ fuel a le,
      (attemptLoop fetch info fuel a le).response.success = true →
      ∃ text, (attemptLoop fetch info fuel a le).response.data? = some text := by
  intro fuel
  induction fuel with
  | zero => intro a le h; simp [attemptLoop] at h
  | succ n ih =>
    intro a le hsucc
    cases hf : fetch a with
    | ok text => exact ⟨text, by simp [attemptLoop, hf]⟩
    | error msg =>
      simp only [attemptLoop, hf] at hsucc ⊢
      exact ih (a + 1) (some msg) hsucc

theorem attemptLoop_delays (fetch : Nat → Except String String)
    (info : RateLimitInfo) :
    ∀ fuel a le, a + fuel = MAX_RETRIES + 1 →
      (attemptLoop fetch info fuel a le).delays =
        (List.range ((attemptLoop fetch info fuel a le).attempts - 1)).map
          (fun i => RETRY_DELAY * (a + i)) := by
  intro fuel
  induction fuel with
  | zero => intro a le _; simp [attemptLoop]
  | succ n ih =>
    intro a le h
    have hM : MAX_RETRIES = 3 := rfl
    cases hf : fetch a with
    | ok text => simp [attemptLoop, hf]
    | error msg =>
      by_cases ha : a < MAX_RETRIES
      · have hn : 0 < n := by omega
        have hpos := attemptLoop_attempts_pos fetch info n (a + 1) (some msg) hn
        have hrest := ih (a + 1) (some msg) (by omega)
        simp only [attemptLoop, hf, if_pos ha]
        obtain ⟨k, hk⟩ : ∃ k, (attemptLoop fetch info n (a + 1) (some msg)).attempts = k + 1 :=
          ⟨(attemptLoop fetch info n (a + 1) (some msg)).attempts - 1, by omega⟩
        rw [hrest, hk]
        simp only [Nat.add_sub_cancel, List.range_succ_eq_map, List.map_cons,
          List.map_map, Nat.add_zero, List.singleton_append]
        congr 1
        refine List.map_congr_left fun i _ => ?_
        simp only [Function.comp_apply]
        congr 1
        omega
      · have han : a = MAX_RETRIES ∧ n = 0 := by omega
        obtain ⟨rfl, rfl⟩ := han
        simp [attemptLoop, hf]

/-! ## Helper lemmas: makeRequest -/

theorem checkRateLimit_eq (now : Nat) (info : RateLimitInfo) :
    checkRateLimit now info =
      (decide (windowCount now info < info.requestsPerMinute),
       resetWindow now info) := by
  unfold checkRateLimit windowCount resetWindow
  by_cases h : now > info.resetTime <;> simp [h]

theorem resetWindow_currentRequests (now : Nat) (info : RateLimitInfo) :
    (resetWindow now info).currentRequests = windowCount now info := by
  unfold resetWindow windowCount
  by_cases h : now > info.resetTime <;> simp [h]

theorem resetWindow_requestsPerMinute (now : Nat) (info : RateLimitInfo) :
    (resetWindow now info).requestsPerMinute = info.requestsPerMinute := by
  unfold resetWindow
  by_cases h : now > info.resetTime <;> simp [h]

theorem makeRequest_eq (fetch : Nat → Except String String) (now : Nat)
    (info : RateLimitInfo) :
    makeRequest fetch now info =
      if windowCount now info < info.requestsPerMinute then
        attemptLoop fetch (resetWindow now info) MAX_RETRIES 1 none
      else
        { response := { success := false, error? := some rateLimitMsg }
          state := resetWindow now info, attempts := 0, delays := [] } := by
  rw [makeRequest, checkRateLimit_eq]
  by_cases h : windowCount now info < info.requestsPerMinute <;> simp [h]

theorem makeRequest_attempts_le (fetch : Nat → Except String String) (now : Nat)
    (info : RateLimitInfo) :
    (makeRequest fetch now info).attempts ≤ MAX_RETRIES := by
  rw [makeRequest]
  by_cases h : (checkRateLimit now info).1 <;> simp [h]
  exact attemptLoop_attempts_le fetch _ MAX_RETRIES 1 none

theorem makeRequest_error_nonempty (fetch : Nat → Except String String) (now : Nat)
    (info : RateLimitInfo)
    (h : (makeRequest fetch now info).response.success = false) :
    ∃ e, (makeRequest fetch now info).response.error? = some e ∧ e ≠ "" := by
  rw [makeRequest] at h ⊢
  by_cases hc : (checkRateLimit now info).1
  · simp only [hc, if_true] at h ⊢
    exact attemptLoop_error_nonempty fetch _ MAX_RETRIES 1 none h
  · simp only [hc]
    exact ⟨rateLimitMsg, by simp, by decide⟩

/-! ## Claim C1 -/

/-- C1, counterexample to the claim as stated: when every attempt fails
with an error whose message is the empty string, the returned error
field is the fallback `'Request failed after retries'` even though an
error **was** recorded (with message `""`) — because
`lastError?.message || '...'` treats the empty message as falsy. -/
theorem cex_C1 :
    (makeRequest (fun _ => Except.error "") 0
        ⟨1, 0, 60000⟩).response.success = false ∧
    (makeRequest (fun _ => Except.error "") 0 ⟨1, 0, 60000⟩).attempts = MAX_RETRIES ∧
    (makeRequest (fun _ => Except.error "") 0 ⟨1, 0, 60000⟩).response.error? =
      some retriesMsg ∧
    retriesMsg ≠ "" := by
  refine ⟨rfl, rfl, rfl, by decide⟩

/-- C1 (as amended): for every API key and request, makeRequest performs
at most `MAX_RETRIES = 3` fetch attempts; when the rate limit allows the
loop to run and all three attempts fail, it stops retrying and returns
`success: false` whose error field is the last recorded error's message,
or `'Request failed after retries'` when no error was recorded **or the
last recorded message is the empty string**. -/
theorem claim_C1 (fetch : Nat → Except String String) (now : Nat)
    (info : RateLimitInfo) :
    (makeRequest fetch now info).attempts ≤ MAX_RETRIES ∧
    (∀ m1 m2 m3, fetch 1 = .error m1 → fetch 2 = .error m2 → fetch 3 = .error m3 →
      (checkRateLimit now info).1 = true →
      (makeRequest fetch now info).attempts = MAX_RETRIES ∧
      (makeRequest fetch now info).response.success = false ∧
      (makeRequest fetch now info).response.error? =
        some (if m3 = "" then retriesMsg else m3)) := by
  refine ⟨makeRequest_attempts_le fetch now info, ?_⟩
  intro m1 m2 m3 h1 h2 h3 hc
  rw [makeRequest]
  simp only [hc, if_true]
  show (attemptLoop fetch _ 3 1 none).attempts = MAX_RETRIES ∧ _
  simp [attemptLoop, h1, h2, h3, jsOrStr, MAX_RETRIES, RETRY_DELAY]

/-- C1 witness: a concrete run in which all three attempts fail with the
message `"fail"`. -/
theorem witness_C1 :
    (makeRequest (fun _ => Except.error "fail") 0 ⟨1, 0, 60000⟩).attempts =
      MAX_RETRIES ∧
    (makeRequest (fun _ => Except.error "fail") 0
        ⟨1, 0, 60000⟩).response.success = false ∧
    (makeRequest (fun _ => Except.error "fail") 0 ⟨1, 0, 60000⟩).response.error? =
      some "fail" := by
  have h := (claim_C1 (fun _ => Except.error "fail") 0 ⟨1, 0, 60000⟩).2
    "fail" "fail" "fail" rfl rfl rfl (by decide)
  simpa using h

/-! ## Claim C2 -/

/-- C2: makeRequest returns the rate-limit error without any HTTP
attempt exactly when, after resetting the window if the current time has
passed `resetTime`, the window's request count is at least
`requestsPerMinute`; otherwise it proceeds to the retry loop (at least
one attempt); and the window counter is incremented exactly for the runs
whose response is successful. -/
theorem claim_C2 (fetch : Nat → Except String String) (now : Nat)
    (info : RateLimitInfo) :
    (((makeRequest fetch now info).attempts = 0 ∧
        (makeRequest fetch now info).response =
          { success := false, error? := some rateLimitMsg }) ↔
      info.requestsPerMinute ≤ windowCount now info) ∧
    (windowCount now info < info.requestsPerMinute →
      1 ≤ (makeRequest fetch now info).attempts) ∧
    (makeRequest fetch now info).state.currentRequests =
      windowCount now info +
        (if (makeRequest fetch now info).response.success then 1 else 0) := by
  rw [makeRequest_eq]
  by_cases h : windowCount now info < info.requestsPerMinute
  · rw [if_pos h]
    have hpos := attemptLoop_attempts_pos fetch (resetWindow now info) MAX_RETRIES 1 none
      (by decide)
    refine ⟨⟨fun hz => absurd hz.1 (by omega), fun hge => absurd hge (by omega)⟩,
      fun _ => hpos, ?_⟩
    rw [attemptLoop_state]
    by_cases hs :
        (attemptLoop fetch (resetWindow now info) MAX_RETRIES 1 none).response.success <;>
      simp [hs, updateRateLimit, resetWindow_currentRequests]
  · rw [if_neg h]
    refine ⟨⟨fun _ => by omega, fun _ => ⟨rfl, rfl⟩⟩, fun hlt => absurd hlt h, ?_⟩
    simp [resetWindow_currentRequests]

/-- C2 witness: with a window allowing 2 requests per minute and none
recorded, a request proceeds to the retry loop and a successful attempt
increments the counter. -/
theorem witness_C2 :
    1 ≤ (makeRequest (fun _ => Except.ok "d") 0 ⟨2, 0, 60000⟩).attempts ∧
    (makeRequest (fun _ => Except.ok "d") 0 ⟨2, 0, 60000⟩).state.currentRequests = 1 := by
  have h := claim_C2 (fun _ => Except.ok "d") 0 ⟨2, 0, 60000⟩
  refine ⟨h.2.1 (by decide), ?_⟩
  have h3 := h.2.2
  simpa using h3

/-! ## Claim C3 -/

/-- C3: in the client of `src/src/utils/geminiClient.ts`,
`rateLimitInfo.requestsPerMinute` starts at 0 and is never changed by a
request, so `checkRateLimit` always reports `false`; hence every
`makeRequest` returns the rate-limit error with no network attempt,
`testApiKey` always reports `isValid: false`, and the four public
operations always throw. -/
theorem claim_C3 (t0 : Nat) :
    (initialRateLimitInfo t0).requestsPerMinute = 0 ∧
    (∀ fetch now info,
      (makeRequest fetch now info).state.requestsPerMinute =
        info.requestsPerMinute) ∧
    (∀ now info, info.requestsPerMinute = 0 → (checkRateLimit now info).1 = false) ∧
    (∀ fetch now info, info.requestsPerMinute = 0 →
      (makeRequest fetch now info).response =
        { success := false, error? := some rateLimitMsg } ∧
      (makeRequest fetch now info).attempts = 0) ∧
    (∀ fetch now info key, info.requestsPerMinute = 0 →
      (testApiKey fetch now info key).1.isValid = false) ∧
    (∀ fetch now info lg, info.requestsPerMinute = 0 →
      (analyzeCode fetch now info).1 = .error rateLimitMsg ∧
      (generateSolution fetch now info lg).1 = .error rateLimitMsg ∧
      (analyzeComplexity fetch now info).1 = .error rateLimitMsg ∧
      (optimizeCode fetch now info).1 = .error rateLimitMsg) := by
  have hfalse : ∀ (now : Nat) (info : RateLimitInfo), info.requestsPerMinute = 0 →
      (checkRateLimit now info).1 = false := by
    intro now info h0
    rw [checkRateLimit_eq]
    simp [h0]
  have hmk : ∀ (fetch : Nat → Except String String) (now : Nat)
      (info : RateLimitInfo), info.requestsPerMinute = 0 →
      makeRequest fetch now info =
        { response := { success := false, error? := some rateLimitMsg }
          state := resetWindow now info, attempts := 0, delays := [] } := by
    intro fetch now info h0
    rw [makeRequest_eq, if_neg (by omega)]
  refine ⟨rfl, ?_, hfalse, ?_, ?_, ?_⟩
  · intro fetch now info
    rw [makeRequest_eq]
    by_cases h : windowCount now info < info.requestsPerMinute
    · rw [if_pos h, attemptLoop_state]
      by_cases hs :
          (attemptLoop fetch (resetWindow now info) MAX_RETRIES 1 none).response.success <;>
        simp [hs, updateRateLimit, resetWindow_requestsPerMinute]
    · rw [if_neg h]
      simp [resetWindow_requestsPerMinute]
  · intro fetch now info h0
    rw [hmk fetch now info h0]
    exact ⟨rfl, rfl⟩
  · intro fetch now info key h0
    have hm := hmk fetch now info h0
    by_cases hfmt : isValidApiKeyFormat key <;> simp [testApiKey, hfmt, hm]
  · intro fetch now info lg h0
    have hm := hmk fetch now info h0
    have hne : ¬(rateLimitMsg = "") := by decide
    simp only [analyzeCode, generateSolution, analyzeComplexity, optimizeCode, hm]
    simp [jsOrStr, hne]

/-- C3 witness: with the initial state of this client, a fetch oracle
that would always succeed still yields a rate-limited failure. -/
theorem witness_C3 :
    (makeRequest (fun _ => Except.ok "ok") 70000
        (initialRateLimitInfo 0)).response =
      { success := false, error? := some rateLimitMsg } ∧
    (testApiKey (fun _ => Except.ok "ok") 70000 (initialRateLimitInfo 0)
        "AIzaSyB1234567890123456789012345678901").1.isValid = false ∧
    (analyzeCode (fun _ => Except.ok "ok") 70000 (initialRateLimitInfo 0)).1 =
      .error rateLimitMsg := by
  refine ⟨((claim_C3 0).2.2.2.1 _ 70000 _ rfl).1, ?_, ?_⟩
  · exact (claim_C3 0).2.2.2.2.1 _ 70000 _ _ rfl
  · exact ((claim_C3 0).2.2.2.2.2 _ 70000 _ SupportedLanguage.python rfl).1

/-! ## Claim C6 -/

/-- C6: the delays awaited between consecutive attempts of one
makeRequest run grow linearly: after attempt `k` (when a further attempt
follows) the loop waits `RETRY_DELAY * k` milliseconds, so the delay
list is `[1000 * 1, ..., 1000 * (attempts - 1)]` and no delay follows
the final attempt. -/
theorem claim_C6 (fetch : Nat → Except String String) (now : Nat)
    (info : RateLimitInfo) :
    (makeRequest fetch now info).delays =
      (List.range ((makeRequest fetch now info).attempts - 1)).map
        (fun i => RETRY_DELAY * (i + 1)) := by
  rw [makeRequest]
  by_cases h : (checkRateLimit now info).1
  · simp only [h, if_true]
    rw [attemptLoop_delays fetch _ MAX_RETRIES 1 none (by decide)]
    refine List.map_congr_left fun i _ => ?_
    congr 1
    omega
  · simp [h]

/-- C6 witness: a run whose three attempts all fail waits 1000 ms after
attempt 1 and 2000 ms after attempt 2, with no delay after attempt 3. -/
theorem witness_C6 :
    (makeRequest (fun _ => Except.error "x") 0 ⟨1, 0, 60000⟩).delays =
      [1000, 2000] :=
  (claim_C6 (fun _ => Except.error "x") 0 ⟨1, 0, 60000⟩).trans (by decide)

/-! ## Claim C7 -/

/-- C7: whenever makeRequest yields `success: false`, its error string
is present and nonempty and each public operation throws exactly that
string (the operations' fallback messages are reserved for an absent or
empty error, which cannot occur); and each operation returns a parsed
result only when the underlying request succeeded, in which case the
result is the corresponding parser applied to the response data. -/
theorem claim_C7 (fetch : Nat → Except String String) (now : Nat)
    (info : RateLimitInfo) (lg : SupportedLanguage) :
    ((makeRequest fetch now info).response.success = false →
      ∃ e, (makeRequest fetch now info).response.error? = some e ∧ e ≠ "" ∧
        (analyzeCode fetch now info).1 = .error e ∧
        (generateSolution fetch now info lg).1 = .error e ∧
        (analyzeComplexity fetch now info).1 = .error e ∧
        (optimizeCode fetch now info).1 = .error e) ∧
    (∀ r, (analyzeCode fetch now info).1 = .ok r →
      (makeRequest fetch now info).response.success = true ∧
      r = parseAnalysisResponse (responseData (makeRequest fetch now info).response)) ∧
    (∀ r, (generateSolution fetch now info lg).1 = .ok r →
      (makeRequest fetch now info).response.success = true ∧
      r = parseSolutionResponse (responseData (makeRequest fetch now info).response) lg) ∧
    (∀ r, (analyzeComplexity fetch now info).1 = .ok r →
      (makeRequest fetch now info).response.success = true ∧
      r = parseComplexityResponse (responseData (makeRequest fetch now info).response)) ∧
    (∀ r, (optimizeCode fetch now info).1 = .ok r →
      (makeRequest fetch now info).response.success = true ∧
      r = parseOptimizationResponse (responseData (makeRequest fetch now info).response)) := by
  constructor
  · intro hfail
    obtain ⟨e, he, hne⟩ := makeRequest_error_nonempty fetch now info hfail
    refine ⟨e, he, hne, ?_, ?_, ?_, ?_⟩ <;>
      simp [analyzeCode, generateSolution, analyzeComplexity, optimizeCode, hfail, he,
        jsOrStr_some_ne e _ hne]
  · refine ⟨?_, ?_, ?_, ?_⟩ <;> intro r hr <;>
      by_cases hs : (makeRequest fetch now info).response.success
    · simp only [analyzeCode, hs, if_true, Except.ok.injEq] at hr
      exact ⟨hs, hr.symm⟩
    · simp [analyzeCode, hs] at hr
    · simp only [generateSolution, hs, if_true, Except.ok.injEq] at hr
      exact ⟨hs, hr.symm⟩
    · simp [generateSolution, hs] at hr
    · simp only [analyzeComplexity, hs, if_true, Except.ok.injEq] at hr
      exact ⟨hs, hr.symm⟩
    · simp [analyzeComplexity, hs] at hr
    · simp only [optimizeCode, hs, if_true, Except.ok.injEq] at hr
      exact ⟨hs, hr.symm⟩
    · simp [optimizeCode, hs] at hr

/-- C7 witness: a run whose three attempts all fail with `"boom"` makes
`analyzeCode` throw exactly `"boom"`. -/
theorem witness_C7 :
    (analyzeCode (fun _ => Except.error "boom") 0 ⟨1, 0, 60000⟩).1 =
      .error "boom" := by
  obtain ⟨e, he, -, ha, -, -, -⟩ :=
    (claim_C7 (fun _ => Except.error "boom") 0 ⟨1, 0, 60000⟩
      SupportedLanguage.python).1 rfl
  have he2 : (makeRequest (fun _ => Except.error "boom") 0
      ⟨1, 0, 60000⟩).response.error? = some "boom" := rfl
  rw [he2] at he
  obtain rfl := Option.some.inj he
  exact ha

/-! ## Claim C4 -/

/-- C4: each tolerant parser is total, and when `JSON.parse` rejects the
response text each returns its documented fallback: empty error and
warning lists with confidence 0 and the single suggestion
`'Failed to parse analysis response'`; the raw text as the solution
code; `'O(?)'` complexities; and a single low-impact fallback
optimization suggestion. -/
theorem claim_C4 (s : String) (lg : SupportedLanguage) (h : jsonParse s = none) :
    parseAnalysisResponse s = analysisFallback ∧
    parseSolutionResponse s lg =
      { code := .str s, language := lg, approach := .str "Generated solution"
        timeComplexity := .str "O(?)", spaceComplexity := .str "O(?)" } ∧
    parseComplexityResponse s =
      { timeComplexity := unknownTimeComplexity, spaceComplexity := .str "O(?)"
        explanation := .str "Failed to parse complexity analysis"
        comparisonWithOptimal := none } ∧
    parseOptimizationResponse s = optimizationFallback := by
  simp [parseAnalysisResponse, parseSolutionResponse, parseComplexityResponse,
    parseOptimizationResponse, h]

/-- C4 witness: the fallbacks on a concrete unparsable response. -/
theorem witness_C4 :
    parseAnalysisResponse "not json" = analysisFallback ∧
    (parseSolutionResponse "not json" SupportedLanguage.python).code =
      .str "not json" ∧
    parseOptimizationResponse "not json" = optimizationFallback := by
  obtain ⟨h1, h2, -, h4⟩ := claim_C4 "not json" SupportedLanguage.python rfl
  exact ⟨h1, by rw [h2], h4⟩

/-! ## Claim C5 -/

/-- C5, counterexample to the claim as stated: the response text
`'{"confidence": 0}'` is accepted by `JSON.parse` as an object whose
`confidence` field is present (and equal to `0`), yet
`parseAnalysisResponse` substitutes the default `0.5` — because
`parsed.confidence || 0.5` treats the present value `0` as falsy. -/
theorem cex_C5 :
    jsonParse "\x7b\"confidence\": 0\x7d" = some (.obj [("confidence", .num 0)]) ∧
    (parseAnalysisResponse "\x7b\"confidence\": 0\x7d").confidence =
      .num (mkRat 1 2) ∧
    Json.num (mkRat 1 2) ≠ Json.num 0 := by
  refine ⟨rfl, rfl, ?_⟩
  simpa using (by decide : mkRat 1 2 ≠ (0 : ℚ))

/-- C5 (as amended): for every response text that `JSON.parse` accepts
as an object, `parseAnalysisResponse` returns the object's `errors`,
`warnings`, `suggestions` and `confidence` fields, substituting the
defaults (empty lists, confidence 0.5) for a field that is absent **or
whose value is falsy** (`null`, `false`, `0` or the empty string). -/
theorem claim_C5 (s : String) (kvs : List (String × Json))
    (h : jsonParse s = some (.obj kvs)) :
    parseAnalysisResponse s =
      { errors := jsOrJson (lookupLast kvs "errors") (.arr [])
        warnings := jsOrJson (lookupLast kvs "warnings") (.arr [])
        suggestions := jsOrJson (lookupLast kvs "suggestions") (.arr [])
        confidence := jsOrJson (lookupLast kvs "confidence") (.num (mkRat 1 2)) } := by
  simp [parseAnalysisResponse, h, getField]

/-- C5 witness: a concrete object response with a truthy confidence. -/
theorem witness_C5 :
    parseAnalysisResponse "\x7b\"confidence\": 0.75\x7d" =
      { errors := .arr [], warnings := .arr [], suggestions := .arr []
        confidence := .num (mkRat 3 4) } :=
  (claim_C5 "\x7b\"confidence\": 0.75\x7d" [("confidence", .num (mkRat 3 4))] rfl).trans
    (by rfl)

/-! ## Claim C9 -/

theorem okFromInt_nil (o cl : Char) (k : Int) : okFromInt o cl k [] ↔ k = 0 := by
  unfold okFromInt
  simp only [List.count_nil, List.length_nil, Nat.le_zero, List.take_nil,
    Nat.cast_zero]
  constructor
  · rintro ⟨h1, -⟩
    omega
  · rintro rfl
    exact ⟨by omega, fun n hn => by omega⟩

theorem okFromInt_cons (o cl : Char) (k : Int) (ch : Char) (l : List Char) :
    okFromInt o cl k (ch :: l) ↔
      0 ≤ k ∧
        okFromInt o cl
          (k + (if ch = o then 1 else 0) - (if ch = cl then 1 else 0)) l := by
  unfold okFromInt
  constructor
  · rintro ⟨h1, h2⟩
    have h0 := h2 0 (by omega)
    simp only [List.take_zero, List.count_nil, Nat.cast_zero] at h0
    have h1' : (k + (if ch = o then 1 else 0) - (if ch = cl then 1 else 0)) +
        (l.count o : Int) - l.count cl = 0 := by
      simp only [List.count_cons, beq_iff_eq] at h1
      by_cases hco : ch = o <;> by_cases hcc : ch = cl <;>
        simp only [hco, hcc, if_true, if_false] at h1 ⊢ <;>
        push_cast at h1 ⊢ <;> omega
    refine ⟨by omega, h1', ?_⟩
    intro n hn
    have h3 := h2 (n + 1) (by simp only [List.length_cons]; omega)
    simp only [List.take_succ_cons, List.count_cons, beq_iff_eq] at h3
    by_cases hco : ch = o <;> by_cases hcc : ch = cl <;>
      simp only [hco, hcc, if_true, if_false] at h3 ⊢ <;>
      push_cast at h3 ⊢ <;> omega
  · rintro ⟨h0, h1, h2⟩
    constructor
    · simp only [List.count_cons, beq_iff_eq]
      by_cases hco : ch = o <;> by_cases hcc : ch = cl <;>
        simp only [hco, hcc, if_true, if_false] at h1 ⊢ <;>
        push_cast at h1 ⊢ <;> omega
    · intro n hn
      cases n with
      | zero =>
        simpa using h0
      | succ m =>
        have h3 := h2 m (by simp only [List.length_cons] at hn; omega)
        simp only [List.take_succ_cons, List.count_cons, beq_iff_eq]
        by_cases hco : ch = o <;> by_cases hcc : ch = cl <;>
          simp only [hco, hcc, if_true, if_false] at h3 ⊢ <;>
          push_cast at h3 ⊢ <;> omega

theorem jsErrLoop_false_iff :
    ∀ (cs : List Char) (p b c : Int), 0 ≤ p → 0 ≤ b → 0 ≤ c →
      (jsErrLoop cs p b c = false ↔
        (okFromInt '(' ')' p cs ∧ okFromInt '[' ']' b cs ∧
          okFromInt lbrace rbrace c cs)) := by
  intro cs
  induction cs with
  | nil =>
    intro p b c hp hb hc
    simp only [jsErrLoop, Bool.or_eq_false_iff, bne_eq_false_iff_eq,
      okFromInt_nil]
    tauto
  | cons ch rest ih =>
    intro p b c hp hb hc
    rw [okFromInt_cons, okFromInt_cons, okFromInt_cons]
    by_cases e1 : ch = '('
    · subst e1
      rw [show jsErrLoop ('(' :: rest) p b c = jsErrLoop rest (p + 1) b c from rfl,
        ih (p + 1) b c (by omega) hb hc]
      simp +decide only [reduceIte, add_zero, sub_zero]
      tauto
    by_cases e2 : ch = '['
    · subst e2
      rw [show jsErrLoop ('[' :: rest) p b c = jsErrLoop rest p (b + 1) c from rfl,
        ih p (b + 1) c hp (by omega) hc]
      simp +decide only [reduceIte, add_zero, sub_zero]
      tauto
    by_cases e3 : ch = lbrace
    · subst e3
      rw [show jsErrLoop (lbrace :: rest) p b c = jsErrLoop rest p b (c + 1) from rfl,
        ih p b (c + 1) hp hb (by omega)]
      simp +decide only [reduceIte, add_zero, sub_zero]
      tauto
    by_cases e4 : ch = ')'
    · subst e4
      rw [show jsErrLoop (')' :: rest) p b c =
          (if p - 1 < 0 then true else jsErrLoop rest (p - 1) b c) from rfl]
      simp +decide only [reduceIte, add_zero, sub_zero]
      by_cases hp0 : p - 1 < 0
      · rw [if_pos hp0]
        constructor
        · intro h
          exact absurd h (by simp)
        · rintro ⟨⟨-, hA⟩, -, -⟩
          exfalso
          obtain ⟨-, hpre⟩ := hA
          have h00 := hpre 0 (by omega)
          simp only [List.take_zero, List.count_nil, Nat.cast_zero] at h00
          omega
      · rw [if_neg hp0, ih (p - 1) b c (by omega) hb hc]
        tauto
    by_cases e5 : ch = ']'
    · subst e5
      rw [show jsErrLoop (']' :: rest) p b c =
          (if b - 1 < 0 then true else jsErrLoop rest p (b - 1) c) from rfl]
      simp +decide only [reduceIte, add_zero, sub_zero]
      by_cases hb0 : b - 1 < 0
      · rw [if_pos hb0]
        constructor
        · intro h
          exact absurd h (by simp)
        · rintro ⟨-, ⟨-, hB⟩, -⟩
          exfalso
          obtain ⟨-, hpre⟩ := hB
          have h00 := hpre 0 (by omega)
          simp only [List.take_zero, List.count_nil, Nat.cast_zero] at h00
          omega
      · rw [if_neg hb0, ih p (b - 1) c hp (by omega) hc]
        tauto
    by_cases e6 : ch = rbrace
    · subst e6
      rw [show jsErrLoop (rbrace :: rest) p b c =
          (if c - 1 < 0 then true else jsErrLoop rest p b (c - 1)) from rfl]
      simp +decide only [reduceIte, add_zero, sub_zero]
      by_cases hc0 : c - 1 < 0
      · rw [if_pos hc0]
        constructor
        · intro h
          exact absurd h (by simp)
        · rintro ⟨-, -, ⟨-, hC⟩⟩
          exfalso
          obtain ⟨-, hpre⟩ := hC
          have h00 := hpre 0 (by omega)
          simp only [List.take_zero, List.count_nil, Nat.cast_zero] at h00
          omega
      · rw [if_neg hc0, ih p b (c - 1) hp hb (by omega)]
        tauto
    · rw [show jsErrLoop (ch :: rest) p b c = (
          if ch = '(' then jsErrLoop rest (p + 1) b c
          else if ch = '[' then jsErrLoop rest p (b + 1) c
          else if ch = lbrace then jsErrLoop rest p b (c + 1)
          else if ch = ')' then (if p - 1 < 0 then true else jsErrLoop rest (p - 1) b c)
          else if ch = ']' then (if b - 1 < 0 then true else jsErrLoop rest p (b - 1) c)
          else if ch = rbrace then (if c - 1 < 0 then true else jsErrLoop rest p b (c - 1))
          else jsErrLoop rest p b c) from rfl]
      rw [if_neg e1, if_neg e2, if_neg e3, if_neg e4, if_neg e5, if_neg e6,
        ih p b c hp hb hc]
      rw [if_neg e1, if_neg e4, if_neg e2, if_neg e5, if_neg e3, if_neg e6]
      simp only [add_zero, sub_zero]
      tauto

theorem okFromInt_zero_iff (o cl : Char) (l : List Char) :
    okFromInt o cl 0 l ↔ balancedPair o cl l := by
  unfold okFromInt balancedPair
  constructor
  · rintro ⟨h1, h2⟩
    refine ⟨by omega, fun n hn => ?_⟩
    have := h2 n hn
    omega
  · rintro ⟨h1, h2⟩
    refine ⟨by omega, fun n hn => ?_⟩
    have := h2 n hn
    omega

/-- C9: `detectJavaScriptErrors` reports no error exactly when each
bracket type — parentheses, square brackets, braces — is independently
balanced: equally many openings and closings overall and no prefix with
more closings than openings.  Brackets inside string literals or
comments count like any others, and cross-type interleavings such as
`([)]` satisfy the criterion, hence are not reported. -/
theorem claim_C9 (code : String) :
    detectJavaScriptErrors code = false ↔
      (balancedPair '(' ')' code.data ∧ balancedPair '[' ']' code.data ∧
        balancedPair lbrace rbrace code.data) := by
  rw [detectJavaScriptErrors,
    jsErrLoop_false_iff code.data 0 0 0 (by omega) (by omega) (by omega),
    okFromInt_zero_iff, okFromInt_zero_iff, okFromInt_zero_iff]

/-- C9 witness: the interleaving `([)]` is not reported as an error,
a bracket inside a string literal is counted (so `"("` alone trips the
check), and an unmatched opening is reported. -/
theorem witness_C9 :
    detectJavaScriptErrors "([)]" = false ∧
    detectJavaScriptErrors "s = \"(\"" = true ∧
    detectJavaScriptErrors "(()" = true := by
  refine ⟨(claim_C9 "([)]").mpr (by decide), ?_, ?_⟩
  · rw [← Bool.not_eq_false, claim_C9]
    decide
  · rw [← Bool.not_eq_false, claim_C9]
    decide

/-! ## Claim C10 -/

theorem collectTags_spec :
    ∀ (cs acc : List String), acc.Nodup →
      ∃ l, collectTags cs acc = acc ++ l ∧ (acc ++ l).Nodup ∧
        l.Sublist (cs.filter (fun t => decide (1 < t.length))) := by
  intro cs
  induction cs with
  | nil =>
    intro acc hacc
    exact ⟨[], by simp [collectTags], by simpa using hacc, by simp⟩
  | cons t rest ih =>
    intro acc hacc
    by_cases hcond : t ≠ "" ∧ 1 < t.length ∧ t ∉ acc
    · rw [show collectTags (t :: rest) acc = collectTags rest (acc ++ [t]) from by
        rw [collectTags, if_pos hcond]]
      have hacc' : (acc ++ [t]).Nodup := by
        simp [List.nodup_append, hacc, hcond.2.2]
      obtain ⟨l, hl, hnd, hsub⟩ := ih (acc ++ [t]) hacc'
      refine ⟨t :: l, by simpa [List.append_assoc] using hl, ?_, ?_⟩
      · simpa [List.append_assoc] using hnd
      · rw [List.filter_cons, if_pos (by simpa using hcond.2.1)]
        exact hsub.cons₂ t
    · rw [show collectTags (t :: rest) acc = collectTags rest acc from by
        rw [collectTags, if_neg hcond]]
      obtain ⟨l, hl, hnd, hsub⟩ := ih acc hacc
      refine ⟨l, hl, hnd, ?_⟩
      rw [List.filter_cons]
      by_cases hf : 1 < t.length
      · rw [if_pos (by simpa using hf)]
        exact hsub.cons t
      · rw [if_neg (by simpa using hf)]
        exact hsub

/-- C10: `extractProblemTags` always returns a duplicate-free list of at
most 10 tags, each longer than one character, which is (in order) a
sublist of the candidate texts of its tag selectors filtered to those
tags — i.e. tags appear in order of first appearance. -/
theorem claim_C10 (dom : DOM) :
    (extractProblemTags dom).Nodup ∧
    (extractProblemTags dom).length ≤ 10 ∧
    (∀ t ∈ extractProblemTags dom, 1 < t.length) ∧
    (extractProblemTags dom).Sublist
      ((tagCandidates dom).filter (fun t => decide (1 < t.length))) := by
  obtain ⟨l, hl, hnd, hsub⟩ := collectTags_spec (tagCandidates dom) [] (by simp)
  simp only [List.nil_append] at hl hnd
  have htake : extractProblemTags dom = l.take 10 := by
    rw [extractProblemTags, hl]
  have hsub10 : (l.take 10).Sublist l := List.take_sublist 10 l
  refine ⟨?_, ?_, ?_, ?_⟩
  · rw [htake]
    exact hnd.sublist hsub10
  · rw [htake]
    exact List.length_take_le 10 l
  · intro t ht
    rw [htake] at ht
    have : t ∈ (tagCandidates dom).filter (fun t => decide (1 < t.length)) :=
      hsub.subset (hsub10.subset ht)
    simpa using (List.mem_filter.mp this).2
  · rw [htake]
    exact hsub10.trans hsub

/-- C10 witness: a concrete DOM with a duplicated tag and a too-short
tag. -/
theorem witness_C10 :
    (extractProblemTags
      { query := fun _ => none
        queryAll := fun sel =>
          if sel = ".topic-tag" then
            [{ attrs := [], textContent := "dp" },
             { attrs := [], textContent := "dp" },
             { attrs := [], textContent := "x" },
             { attrs := [], textContent := "graph" }]
          else []
        href := "" }).Nodup ∧
    (extractProblemTags
      { query := fun _ => none
        queryAll := fun sel =>
          if sel = ".topic-tag" then
            [{ attrs := [], textContent := "dp" },
             { attrs := [], textContent := "dp" },
             { attrs := [], textContent := "x" },
             { attrs := [], textContent := "graph" }]
          else []
        href := "" }).length ≤ 10 :=
  ⟨(claim_C10 _).1, (claim_C10 _).2.1⟩

/-! ## Claim C8 -/

theorem langMapLookup_empty : langMapLookup "" = none := by decide

theorem langMapLookup_ne_unknown (k : String) (l : SupportedLanguage)
    (h : langMapLookup k = some l) : l ≠ SupportedLanguage.unknown := by
  unfold langMapLookup LANGUAGE_MAP at h
  simp only [List.lookup] at h
  repeat' split at h
  all_goals simp_all
  all_goals (subst h; decide)

theorem scanSelectors_eq (dom : DOM) :
    ∀ sels, scanSelectors dom sels =
      (sels.filterMap
        (fun sel =>
          (dom.query sel).bind (fun el => langMapLookup (elementLang el)))).head? := by
  intro sels
  induction sels with
  | nil => rfl
  | cons sel rest ih =>
    rw [List.filterMap_cons]
    cases hq : dom.query sel with
    | none => simpa [scanSelectors, hq] using ih
    | some el =>
      by_cases hl : elementLang el ≠ ""
      · cases hm : langMapLookup (elementLang el) with
        | none => simp only [scanSelectors, hq, hl, if_true, hm,
            Option.some_bind, ite_self]; exact ih
        | some l => simp [scanSelectors, hq, hl, hm]
      · push_neg at hl
        simp only [scanSelectors, hq, hl, Option.some_bind, langMapLookup_empty]
        simpa using ih

theorem scanSelectors_ne_unknown (dom : DOM) :
    ∀ sels l, scanSelectors dom sels = some l → l ≠ SupportedLanguage.unknown := by
  intro sels
  induction sels with
  | nil => intro l h; simp [scanSelectors] at h
  | cons sel rest ih =>
    intro l h
    cases hq : dom.query sel with
    | none =>
      rw [scanSelectors, hq] at h
      exact ih l h
    | some el =>
      simp only [scanSelectors, hq] at h
      by_cases hl : elementLang el ≠ ""
      · rw [if_pos hl] at h
        cases hm : langMapLookup (elementLang el) with
        | none => simp only [hm] at h; exact ih l h
        | some l' =>
          simp only [hm] at h
          obtain rfl := Option.some.inj h
          exact langMapLookup_ne_unknown _ _ hm
      · rw [if_neg hl] at h
        exact ih l h

theorem selectorStage_eq_scan (dom : DOM) :
    selectorStage dom = scanSelectors dom LANGUAGE_SELECTORS :=
  (scanSelectors_eq dom LANGUAGE_SELECTORS).symm

theorem selectorStage_ne_unknown (dom : DOM) (l : SupportedLanguage)
    (h : selectorStage dom = some l) : l ≠ SupportedLanguage.unknown :=
  scanSelectors_ne_unknown dom LANGUAGE_SELECTORS l
    (by rw [← selectorStage_eq_scan dom]; exact h)

theorem urlStage_ne_unknown (dom : DOM) (l : SupportedLanguage)
    (h : urlStage dom = some l) : l ≠ SupportedLanguage.unknown := by
  unfold urlStage at h
  cases hlp : langParam dom.href with
  | none => rw [hlp] at h; simp at h
  | some cap =>
    rw [hlp, Option.some_bind] at h
    exact langMapLookup_ne_unknown _ _ h

theorem codeStage_ne_unknown (dom : DOM) (l : SupportedLanguage)
    (h : codeStage dom = some l) : l ≠ SupportedLanguage.unknown := by
  unfold codeStage at h
  by_cases hc : extractCodeFromEditor dom = ""
  · rw [if_pos hc] at h
    exact absurd h (by simp)
  · rw [if_neg hc] at h
    cases hd : detectLanguageFromCode (extractCodeFromEditor dom) <;>
      rw [hd] at h <;> simp at h
    all_goals (subst h; decide)

theorem codeStageDetect_eq (dom : DOM) :
    codeStageDetect dom = (codeStage dom).getD SupportedLanguage.unknown := by
  unfold codeStageDetect codeStage
  by_cases hc : extractCodeFromEditor dom = ""
  · simp [hc]
  · simp only [hc, if_neg, ne_eq, not_false_iff, if_true, if_false]
    cases hd : detectLanguageFromCode (extractCodeFromEditor dom) <;> simp [hd]

/-- C8: `detectProgrammingLanguage` never throws and cascades through
three stages in order — the first language-selector element whose
candidate string (the `data-mode-id` attribute, falling back to the
`title` attribute, falling back to the lowercased trimmed text) maps
through `LANGUAGE_MAP`; then the `lang=` URL query parameter mapped
through `LANGUAGE_MAP`; then pattern scoring of the code extracted from
the editor — and returns `'unknown'` only when all three stages fail. -/
theorem claim_C8 (dom : DOM) :
    detectProgrammingLanguage dom =
      ((selectorStage dom).or ((urlStage dom).or (codeStage dom))).getD
        SupportedLanguage.unknown ∧
    (detectProgrammingLanguage dom = SupportedLanguage.unknown →
      selectorStage dom = none ∧ urlStage dom = none ∧ codeStage dom = none) := by
  have heq : detectProgrammingLanguage dom =
      ((selectorStage dom).or ((urlStage dom).or (codeStage dom))).getD
        SupportedLanguage.unknown := by
    rw [detectProgrammingLanguage]
    cases hs : scanSelectors dom LANGUAGE_SELECTORS with
    | some l =>
      have hs' : selectorStage dom = some l := by rw [selectorStage_eq_scan dom, hs]
      simp only [hs', Option.or_some, Option.getD_some]
    | none =>
      have hs' : selectorStage dom = none := by rw [selectorStage_eq_scan dom, hs]
      simp only [hs', Option.none_or]
      cases hu : langParam dom.href with
      | none =>
        have hurl : urlStage dom = none := by simp [urlStage, hu]
        simp only [hu, hurl, Option.none_or]
        exact codeStageDetect_eq dom
      | some cap =>
        cases hm : langMapLookup cap.toLower with
        | none =>
          have hurl : urlStage dom = none := by simp [urlStage, hu, hm]
          simp only [hu, hm, hurl, Option.none_or]
          exact codeStageDetect_eq dom
        | some l =>
          have hurl : urlStage dom = some l := by simp [urlStage, hu, hm]
          simp only [hu, hm, hurl, Option.or_some, Option.getD_some]
  refine ⟨heq, ?_⟩
  intro h
  rw [heq] at h
  cases hs : selectorStage dom with
  | some l =>
    rw [hs, Option.or_some, Option.getD_some] at h
    exact absurd h (selectorStage_ne_unknown dom l hs)
  | none =>
    rw [hs, Option.none_or] at h
    cases hu : urlStage dom with
    | some l =>
      rw [hu, Option.or_some, Option.getD_some] at h
      exact absurd h (urlStage_ne_unknown dom l hu)
    | none =>
      rw [hu, Option.none_or] at h
      cases hc : codeStage dom with
      | some l =>
        rw [hc, Option.getD_some] at h
        exact absurd h (codeStage_ne_unknown dom l hc)
      | none => exact ⟨rfl, rfl, rfl⟩

/-- C8 witness: on an empty page all three stages fail and the result is
`'unknown'`; the inner implication is discharged at that page. -/
theorem witness_C8 :
    selectorStage { query := fun _ => none, queryAll := fun _ => [], href := "" } = none ∧
    urlStage { query := fun _ => none, queryAll := fun _ => [], href := "" } = none ∧
    codeStage { query := fun _ => none, queryAll := fun _ => [], href := "" } = none :=
  (claim_C8 { query := fun _ => none, queryAll := fun _ => [], href := "" }).2
    (by decide)

end Leetzer
